import Mathlib

set_option maxHeartbeats 1000000
set_option maxRecDepth 4096

/-!
Shallow embedding of the governator-swarm deployer core (Go package
`deployer`), together with proofs about its claim/validate/apply/report
pipeline.  External collaborators (the redis ordered-set store, the docker
swarm control plane and the deploy-state HTTP service) are modelled as
explicit response oracles, and every pipeline function mirrors its Go
counterpart line by line while also recording the trace of external calls
it performs.
-/

/-- Splits a character list at every occurrence of the separator `c`,
mirroring Go `strings.Split` for a one-character separator: the result has
one part per separator occurrence plus one, and no part contains `c`. -/
def splitOnChar (c : Char) : List Char → List (List Char)
  | [] => [[]]
  | x :: xs =>
    if x = c then [] :: splitOnChar c xs
    else
      match splitOnChar c xs with
      | [] => [[x]]
      | y :: ys => (x :: y) :: ys

/-- Go `strings.Split s sep`, for a one-character separator, on `String`. -/
def stringsSplit (s : String) (sep : Char) : List String :=
  (splitOnChar sep s.data).map String.mk

/-- The metadata of a deployment request (Go struct `RequestMetadata` with
JSON field tags `etcdDir` and `dockerUrl`). -/
structure RequestMetadata where
  etcdDir : String
  dockerURL : String
deriving Repr, DecidableEq, Inhabited

/-- Mirrors `deployer.parseDockerURL`: split on every colon, demand exactly
two colon-separated parts, then split the first part on slashes and demand
two or three path components; on any other shape return the empty triple.
In the Go source `tag` starts out as the empty string and is assigned
`dockerURLParts[1]` only when that part is nonempty, which is the same as
always assigning it. -/
def parseDockerURL (dockerURL : String) : String × String × String :=
  let dockerURLParts := stringsSplit dockerURL ':'
  if dockerURLParts.length ≠ 2 then ("", "", "")
  else
    let tag := dockerURLParts.getD 1 ""
    let projectParts := stringsSplit (dockerURLParts.getD 0 "") '/'
    if projectParts.length = 2 then
      (projectParts.getD 0 "", projectParts.getD 1 "", tag)
    else if projectParts.length = 3 then
      (projectParts.getD 1 "", projectParts.getD 2 "", tag)
    else
      ("", "", "")

/-- Modelled from the spec: the declared shape of an image reference,
`[registry/]owner/repo:tag` (spec section 3), where each named segment is a
nonempty string containing neither a colon nor a slash.  This definition
follows the spec words and is used only to compare the spec against
`parseDockerURL`. -/
def IsRefSegment (s : String) : Prop :=
  s ≠ "" ∧ ':' ∉ s.data ∧ '/' ∉ s.data

/-- Modelled from the spec: a string is of the declared image-reference
form when it decomposes as `owner/repo:tag` or `registry/owner/repo:tag`
with all segments proper (nonempty, separator-free). -/
def SpecImageRefForm (s : String) : Prop :=
  ∃ owner repo tag, IsRefSegment owner ∧ IsRefSegment repo ∧ IsRefSegment tag ∧
    (s = owner ++ "/" ++ repo ++ ":" ++ tag ∨
      ∃ registry, IsRefSegment registry ∧
        s = registry ++ "/" ++ owner ++ "/" ++ repo ++ ":" ++ tag)

/-- JSON whitespace, as accepted by Go `encoding/json`. -/
def isJsonWs (c : Char) : Bool :=
  c = ' ' || c = '\t' || c = '\n' || c = '\r'

/-- Drops leading JSON whitespace. -/
def skipWs : List Char → List Char
  | [] => []
  | c :: cs => if isJsonWs c then skipWs cs else c :: cs

/-- A JSON value, for the model of Go `encoding/json`.  Number literals are
kept as their source text since the deployer never reads numeric fields. -/
inductive Json where
  | null
  | bool (b : Bool)
  | num (lit : String)
  | str (s : String)
  | arr (elems : List Json)
  | obj (fields : List (String × Json))
deriving Repr, Inhabited

/-- Resolves a character following a backslash inside a JSON string. -/
def unescapeChar (c : Char) : Char :=
  if c = 'n' then '\n' else if c = 't' then '\t' else if c = 'r' then '\r' else c

/-- Reads the body of a JSON string literal (the opening quote already
consumed), up to and including the closing quote. -/
def lexString : List Char → Option (String × List Char)
  | [] => none
  | c :: cs =>
    if c = '"' then some ("", cs)
    else if c = '\\' then
      match cs with
      | [] => none
      | e :: cs2 =>
        match lexString cs2 with
        | none => none
        | some (s, rest) => some (String.mk (unescapeChar e :: s.data), rest)
    else
      match lexString cs with
      | none => none
      | some (s, rest) => some (String.mk (c :: s.data), rest)

/-- Characters that may occur in a JSON number literal. -/
def isNumChar (c : Char) : Bool :=
  c.isDigit || c = '-' || c = '+' || c = '.' || c = 'e' || c = 'E'

/-- Reads the longest numeric-literal prefix of the input. -/
def lexNum : List Char → String × List Char
  | [] => ("", [])
  | c :: cs =>
    if isNumChar c then
      let (s, rest) := lexNum cs
      (String.mk (c :: s.data), rest)
    else ("", c :: cs)

/-- Parsing mode of the fueled JSON reader: a value, the members of an
object (after the opening brace), or the elements of an array (after the
opening square bracket). -/
inductive JMode where
  | value
  | members (first : Bool) (acc : List (String × Json))
  | elems (first : Bool) (acc : List Json)

/-- Fueled recursive-descent JSON reader; the fuel only bounds nesting so
that the recursion is structural, and `parseJson` supplies enough of it for
every input. -/
def parseJ : Nat → JMode → List Char → Option (Json × List Char)
  | 0, _, _ => none
  | fuel + 1, .value, input =>
    match skipWs input with
    | [] => none
    | c :: cs =>
      if c = '"' then
        match lexString cs with
        | none => none
        | some (s, rest) => some (.str s, rest)
      else if c = '\x7b' then parseJ fuel (.members true []) cs
      else if c = '[' then parseJ fuel (.elems true []) cs
      else if c = 't' then
        match cs with
        | 'r' :: 'u' :: 'e' :: rest => some (.bool true, rest)
        | _ => none
      else if c = 'f' then
        match cs with
        | 'a' :: 'l' :: 's' :: 'e' :: rest => some (.bool false, rest)
        | _ => none
      else if c = 'n' then
        match cs with
        | 'u' :: 'l' :: 'l' :: rest => some (.null, rest)
        | _ => none
      else
        match lexNum (c :: cs) with
        | ("", _) => none
        | (lit, rest) => some (.num lit, rest)
  | fuel + 1, .members first acc, input =>
    match skipWs input with
    | [] => none
    | c :: cs =>
      if c = '\x7d' then some (.obj acc.reverse, cs)
      else if first then
        if c = '"' then
          match lexString cs with
          | none => none
          | some (key, r1) =>
            match skipWs r1 with
            | ':' :: r2 =>
              match parseJ fuel .value r2 with
              | none => none
              | some (v, r3) => parseJ fuel (.members false ((key, v) :: acc)) r3
            | _ => none
        else none
      else if c = ',' then
        match skipWs cs with
        | '"' :: cs2 =>
          match lexString cs2 with
          | none => none
          | some (key, r1) =>
            match skipWs r1 with
            | ':' :: r2 =>
              match parseJ fuel .value r2 with
              | none => none
              | some (v, r3) => parseJ fuel (.members false ((key, v) :: acc)) r3
            | _ => none
        | _ => none
      else none
  | fuel + 1, .elems first acc, input =>
    match skipWs input with
    | [] => none
    | c :: cs =>
      if c = ']' then some (.arr acc.reverse, cs)
      else if first then
        match parseJ fuel .value (c :: cs) with
        | none => none
        | some (v, r) => parseJ fuel (.elems false (v :: acc)) r
      else if c = ',' then
        match parseJ fuel .value cs with
        | none => none
        | some (v, r) => parseJ fuel (.elems false (v :: acc)) r
      else none

/-- Reads one JSON value from the front of `s`. -/
def parseJson (s : String) : Option (Json × List Char) :=
  parseJ (2 * s.length + 16) .value s.data

/-- Reads a string-typed field of a decoded JSON object; an absent field
leaves the Go struct field at its zero value (the empty string), and a
present field of any non-string type is a decoding error. -/
def getStringField (fields : List (String × Json)) (name : String) : Except String String :=
  match fields.lookup name with
  | none => Except.ok ""
  | some (.str s) => Except.ok s
  | some _ => Except.error ("json: bad field " ++ name)

/-- Models Go `encoding/json.Unmarshal` into `RequestMetadata` (an external
library call): the whole input must be a single JSON value with only
trailing whitespace, the value must be an object, and the fields tagged
`etcdDir` and `dockerUrl` must be strings when present.  The error
messages are representative stand-ins for Go's. -/
def unmarshalRequestMetadata (s : String) : Except String RequestMetadata :=
  match parseJson s with
  | none => Except.error "unexpected end of JSON input"
  | some (v, rest) =>
    if skipWs rest ≠ [] then Except.error "invalid trailing JSON data"
    else
      match v with
      | .obj fields =>
        match getStringField fields "etcdDir" with
        | Except.error e => Except.error e
        | Except.ok etcdDir =>
          match getStringField fields "dockerUrl" with
          | Except.error e => Except.error e
          | Except.ok dockerURL => Except.ok ⟨etcdDir, dockerURL⟩
      | _ => Except.error "json: not an object"

/-- A docker swarm service version token (`swarm.Version`), read by inspect
and passed back unchanged on update for optimistic concurrency. -/
structure ServiceVersion where
  index : Nat
deriving Repr, DecidableEq, Inhabited

/-- The container part of a service spec; only the image field is relevant
to (and touched by) the deployer. -/
structure ContainerSpec where
  image : String
deriving Repr, DecidableEq, Inhabited

/-- `swarm.TaskSpec`, restricted to the path the deployer uses. -/
structure TaskTemplate where
  containerSpec : ContainerSpec
deriving Repr, DecidableEq, Inhabited

/-- `swarm.ServiceSpec`, restricted to the path the deployer uses. -/
structure ServiceSpec where
  taskTemplate : TaskTemplate
deriving Repr, DecidableEq, Inhabited

/-- A swarm service as returned by inspect: identifier, version token and
current spec, read together in one call. -/
structure Service where
  id : String
  version : ServiceVersion
  spec : ServiceSpec
deriving Repr, DecidableEq, Inhabited

/-- Response oracle for the docker swarm control plane (Go
`client.APIClient`): inspect-by-name returns the service or an error;
update submits an identifier, a version token and a new spec. -/
structure DockerClient where
  serviceInspectWithRaw : String → Except String Service
  serviceUpdate : String → ServiceVersion → ServiceSpec → Except String Unit

/-- Response oracle for the redis connection (Go `redis.Conn`): each field
gives the server's reply to the one command shape the deployer issues
through `Do`; an `Except.error` reply models a failed round trip. -/
structure RedisConn where
  zrangebyscore : String → Int → Int → Except String (List String)
  zrem : String → String → Except String Int
  hexists : String → String → Except String Int
  hget : String → String → Except String (Option String)

/-- One external call performed by the pipeline, recorded in order: the
four redis commands, the two control-plane calls and the tracker request. -/
inductive Effect where
  | zrangebyscore (key : String) (lower upper : Int)
  | zrem (key member : String)
  | hexists (key field : String)
  | hget (key field : String)
  | serviceInspect (name : String)
  | serviceUpdate (id : String) (version : ServiceVersion) (spec : ServiceSpec)
  | httpPut (url : String) (body : Option String)
deriving Repr, DecidableEq

/-- The deployer (Go struct `Deployer`).  The redis connection and docker
client are the response oracles above; `httpPut` stands for the HTTP
client built inside `notifyDeployState`, takes the URL and request body
and returns the response status code (or an error when request creation or
the round trip fails). -/
structure Deployer where
  dockerClient : DockerClient
  redisConn : RedisConn
  queueName : String
  deployStateURI : String
  cluster : String
  httpPut : String → Option String → Except String Nat

/-- Mirrors `deployer.getKey`: namespaces a key under the queue name. -/
def Deployer.getKey (d : Deployer) (key : String) : String :=
  d.queueName ++ ":" ++ key

/-- Mirrors `deployer.getNextDeploy`: `ZRANGEBYSCORE <queue>:governator:deploys 0 now`,
then the empty-string sentinel when no member is due, else the first
returned member. -/
def Deployer.getNextDeploy (d : Deployer) (now : Int) :
    Except String String × List Effect :=
  match d.redisConn.zrangebyscore (d.getKey "governator:deploys") 0 now with
  | Except.error e =>
      (Except.error e, [Effect.zrangebyscore (d.getKey "governator:deploys") 0 now])
  | Except.ok deploys =>
    match deploys with
    | [] => (Except.ok "", [Effect.zrangebyscore (d.getKey "governator:deploys") 0 now])
    | first :: _ =>
        (Except.ok first, [Effect.zrangebyscore (d.getKey "governator:deploys") 0 now])

/-- Mirrors `deployer.lockDeploy`: `ZREM` of the selected member; the claim
succeeds exactly when the reported removal count is nonzero. -/
def Deployer.lockDeploy (d : Deployer) (deploy : String) :
    Except String Bool × List Effect :=
  match d.redisConn.zrem (d.getKey "governator:deploys") deploy with
  | Except.error e =>
      (Except.error e, [Effect.zrem (d.getKey "governator:deploys") deploy])
  | Except.ok result =>
      (Except.ok (result != 0), [Effect.zrem (d.getKey "governator:deploys") deploy])

/-- Mirrors `deployer.validateDeploy`: `HEXISTS <queue>:<deploy> cancellation`;
the deploy is valid exactly when the field is absent. -/
def Deployer.validateDeploy (d : Deployer) (deploy : String) :
    Except String Bool × List Effect :=
  match d.redisConn.hexists (d.getKey deploy) "cancellation" with
  | Except.error e => (Except.error e, [Effect.hexists (d.getKey deploy) "cancellation"])
  | Except.ok ex => (Except.ok (ex == 0), [Effect.hexists (d.getKey deploy) "cancellation"])

/-- Mirrors `deployer.getMetadata`: `HGET <queue>:<deploy> request:metadata`;
a nil reply is the data-integrity error naming the identifier, a present
reply is JSON-decoded with any decoding error surfaced as-is. -/
def Deployer.getMetadata (d : Deployer) (deploy : String) :
    Except String RequestMetadata × List Effect :=
  match d.redisConn.hget (d.getKey deploy) "request:metadata" with
  | Except.error e => (Except.error e, [Effect.hget (d.getKey deploy) "request:metadata"])
  | Except.ok none =>
      (Except.error ("Deploy metadata not found for \x27" ++ deploy ++ "\x27"),
        [Effect.hget (d.getKey deploy) "request:metadata"])
  | Except.ok (some metadataBytes) =>
    match unmarshalRequestMetadata metadataBytes with
    | Except.error e => (Except.error e, [Effect.hget (d.getKey deploy) "request:metadata"])
    | Except.ok metadata =>
        (Except.ok metadata, [Effect.hget (d.getKey deploy) "request:metadata"])

/-- Mirrors `deployer.getNextValidDeploy`: select, then claim, then check
cancellation, then read the metadata; `none` is the Go nil result standing
for "nothing to do this cycle". -/
def Deployer.getNextValidDeploy (d : Deployer) (now : Int) :
    Except String (Option RequestMetadata) × List Effect :=
  match d.getNextDeploy now with
  | (Except.error e, t) => (Except.error e, t)
  | (Except.ok deploy, t) =>
    if deploy = "" then (Except.ok none, t)
    else
      match d.lockDeploy deploy with
      | (Except.error e, t2) => (Except.error e, t ++ t2)
      | (Except.ok ok, t2) =>
        if !ok then (Except.ok none, t ++ t2)
        else
          match d.validateDeploy deploy with
          | (Except.error e, t3) => (Except.error e, t ++ t2 ++ t3)
          | (Except.ok ok2, t3) =>
            if !ok2 then (Except.ok none, t ++ t2 ++ t3)
            else
              match d.getMetadata deploy with
              | (Except.error e, t4) => (Except.error e, t ++ t2 ++ t3 ++ t4)
              | (Except.ok metadata, t4) => (Except.ok (some metadata), t ++ t2 ++ t3 ++ t4)

/-- Mirrors the single Go assignment
`service.Spec.TaskTemplate.ContainerSpec.Image = metadata.DockerURL`. -/
def specSetImage (spec : ServiceSpec) (image : String) : ServiceSpec :=
  { spec with taskTemplate.containerSpec.image := image }

/-- Mirrors `deployer.notifyDeployState`: parse the docker URL, build
`<base>/deployments/<owner>/<repo>/<tag>/cluster/<cluster>/passed`, issue a
bodyless PUT, and fail exactly when the request fails or the status code
exceeds 399. -/
def Deployer.notifyDeployState (d : Deployer) (dockerURL : String) :
    Except String Unit × List Effect :=
  let (owner, repo, tag) := parseDockerURL dockerURL
  let uri := "deployments/" ++ owner ++ "/" ++ repo ++ "/" ++ tag ++ "/cluster/" ++
    d.cluster ++ "/passed"
  let fullURL := d.deployStateURI ++ "/" ++ uri
  match d.httpPut fullURL none with
  | Except.error e => (Except.error e, [Effect.httpPut fullURL none])
  | Except.ok statusCode =>
    if statusCode > 399 then
      (Except.error "invalid response from deploy-state-service",
        [Effect.httpPut fullURL none])
    else
      (Except.ok (), [Effect.httpPut fullURL none])

/-- Mirrors `deployer.deploy`: inspect the service named by the parsed repo
component, overwrite the spec's image field with the full docker URL,
submit the update with the version token read by the inspect, then notify
the deploy-state tracker. -/
def Deployer.deploy (d : Deployer) (metadata : RequestMetadata) :
    Except String Unit × List Effect :=
  let (_, repo, _) := parseDockerURL metadata.dockerURL
  match d.dockerClient.serviceInspectWithRaw repo with
  | Except.error e => (Except.error e, [Effect.serviceInspect repo])
  | Except.ok service =>
    let newSpec := specSetImage service.spec metadata.dockerURL
    match d.dockerClient.serviceUpdate service.id service.version newSpec with
    | Except.error e =>
        (Except.error e,
          [Effect.serviceInspect repo, Effect.serviceUpdate service.id service.version newSpec])
    | Except.ok _ =>
      ((d.notifyDeployState metadata.dockerURL).1,
        [Effect.serviceInspect repo,
          Effect.serviceUpdate service.id service.version newSpec] ++
          (d.notifyDeployState metadata.dockerURL).2)

/-- Mirrors `deployer.Run`: one full cycle — select, claim, validate, read
metadata, deploy; a nil selection ends the cycle with no error. -/
def Deployer.Run (d : Deployer) (now : Int) : Except String Unit × List Effect :=
  match d.getNextValidDeploy now with
  | (Except.error e, t) => (Except.error e, t)
  | (Except.ok none, t) => (Except.ok (), t)
  | (Except.ok (some deploy), t) => ((d.deploy deploy).1, t ++ (d.deploy deploy).2)

/-- Concrete contents of the store, used to instantiate the redis oracle
with real redis semantics: `deploys` is the member/score list of the
ordered set `<queue>:governator:deploys` in the order redis reports it
(ascending score), and `hashes` maps a full redis key to the field/value
pairs of the record stored there. -/
structure RedisState where
  deploys : List (String × Int)
  hashes : List (String × List (String × String))

/-- Redis `ZRANGEBYSCORE`: the members whose score lies in
`[lower, upper]`, in stored order. -/
def RedisState.zrangebyscoreList (s : RedisState) (lower upper : Int) : List String :=
  (s.deploys.filter (fun p => decide (lower ≤ p.2 ∧ p.2 ≤ upper))).map Prod.fst

/-- Redis `HGET` on a concrete state: nil when the key or the field is
absent. -/
def RedisState.hgetOpt (s : RedisState) (key field : String) : Option String :=
  match s.hashes.lookup key with
  | none => none
  | some h => h.lookup field

/-- A redis connection answering from a concrete `RedisState` and never
failing: `ZRANGEBYSCORE` filters by score, `ZREM` reports how many stored
entries carry the member, `HEXISTS` and `HGET` read the record.  The
single ordered set answers whatever key the deployer passes, which is
always `<queue>:governator:deploys`. -/
def RedisState.conn (s : RedisState) : RedisConn where
  zrangebyscore := fun _ lower upper => Except.ok (s.zrangebyscoreList lower upper)
  zrem := fun _ member =>
    Except.ok (((s.deploys.filter (fun p => p.1 == member)).length : Int))
  hexists := fun key field => Except.ok (if (s.hgetOpt key field).isSome then 1 else 0)
  hget := fun key field => Except.ok (s.hgetOpt key field)

/-- A redis connection with fixed replies, for concrete runs. -/
def mkRedisConn (zr : Except String (List String)) (zremReply : Except String Int)
    (hex : Except String Int) (hg : Except String (Option String)) : RedisConn :=
  ⟨fun _ _ _ => zr, fun _ _ => zremReply, fun _ _ => hex, fun _ _ => hg⟩

/-- A concrete service for sample runs. -/
def exService : Service :=
  ⟨"svc-1", ⟨7⟩, ⟨⟨⟨"octoblu/my-application:v0"⟩⟩⟩⟩

/-- A docker oracle that finds `exService` and accepts every update. -/
def exDocker : DockerClient :=
  ⟨fun _ => Except.ok exService, fun _ _ _ => Except.ok ()⟩

/-- A deployer over the given redis replies, docker oracle and HTTP status
reply, configured like the package's own tests: queue `redis-queue:name`,
tracker base `https://deploy-state.test`, cluster `super`. -/
def mkDeployer (conn : RedisConn) (docker : DockerClient)
    (putReply : Except String Nat) : Deployer :=
  ⟨docker, conn, "redis-queue:name", "https://deploy-state.test", "super",
    fun _ _ => putReply⟩

/-- The metadata payload used by the package's own tests. -/
def exMetadataJson : String :=
  "\x7b\"etcdDir\":\"/octoblu/my-application\", \"dockerUrl\":\"octoblu/my-application:v1\"\x7d"

/-- Deployer whose selected item carries a `cancellation` marker. -/
def dCancelled : Deployer :=
  mkDeployer (mkRedisConn (Except.ok ["pending-deploy-1"]) (Except.ok 1)
    (Except.ok 1) (Except.ok none)) exDocker (Except.ok 200)

/-- Deployer whose claiming `ZREM` reports zero removals. -/
def dLostClaim : Deployer :=
  mkDeployer (mkRedisConn (Except.ok ["pending-deploy-1"]) (Except.ok 0)
    (Except.ok 0) (Except.ok (some exMetadataJson))) exDocker (Except.ok 200)

/-- Deployer on the happy path up to the tracker, which answers 500. -/
def dTracker500 : Deployer :=
  mkDeployer (mkRedisConn (Except.ok ["pending-deploy-1"]) (Except.ok 1)
    (Except.ok 0) (Except.ok (some exMetadataJson))) exDocker (Except.ok 500)

/-- Deployer whose metadata field is absent (nil `HGET` reply). -/
def dNoMetadata : Deployer :=
  mkDeployer (mkRedisConn (Except.ok ["pending-deploy-1"]) (Except.ok 1)
    (Except.ok 0) (Except.ok none)) exDocker (Except.ok 200)

/-- Deployer on the happy path with a 200 tracker reply. -/
def dHappy : Deployer :=
  mkDeployer (mkRedisConn (Except.ok ["pending-deploy-1"]) (Except.ok 1)
    (Except.ok 0) (Except.ok (some exMetadataJson))) exDocker (Except.ok 200)

/-- Deployer whose metadata field holds empty bytes (non-nil `HGET`). -/
def dEmptyMetadata : Deployer :=
  mkDeployer (mkRedisConn (Except.ok ["pending-deploy-1"]) (Except.ok 1)
    (Except.ok 0) (Except.ok (some ""))) exDocker (Except.ok 200)

/-- A small sorted ordered set: two members due at times 1 and 2. -/
def sTwoDue : RedisState := ⟨[("a", 1), ("b", 2)], []⟩

/-- Deployer over the concrete two-member ordered set. -/
def dTwoDue : Deployer := mkDeployer sTwoDue.conn exDocker (Except.ok 200)

/-- An ordered set whose only member has a negative score. -/
def sNegativeScore : RedisState := ⟨[("a", -1)], []⟩

/-- Deployer over the negative-score ordered set. -/
def dNegativeScore : Deployer := mkDeployer sNegativeScore.conn exDocker (Except.ok 200)

theorem stringMk_data (s : String) : String.mk s.data = s := by
  cases s; rfl

theorem string_data_append (a b : String) : (a ++ b).data = a.data ++ b.data := by
  cases a; cases b; rfl

theorem string_length_append (a b : String) : (a ++ b).length = a.length + b.length := by
  cases a; cases b; simp [String.length, String.append]

theorem string_data_eq_nil (s : String) (h : s.data = []) : s = "" := by
  cases s; simp_all

theorem splitOnChar_ne_nil (c : Char) (l : List Char) : splitOnChar c l ≠ [] := by
  cases l with
  | nil => simp [splitOnChar]
  | cons x xs =>
    simp only [splitOnChar]
    split
    · simp
    · split <;> simp

theorem splitOnChar_length (c : Char) :
    ∀ l : List Char, (splitOnChar c l).length = l.count c + 1 := by
  intro l
  induction l with
  | nil => simp [splitOnChar]
  | cons x xs ih =>
    by_cases hx : x = c
    · subst hx
      simp [splitOnChar, ih, List.count_cons]
    · rcases h : splitOnChar c xs with _ | ⟨y, ys⟩
      · exact absurd h (splitOnChar_ne_nil c xs)
      · rw [h] at ih
        simp only [splitOnChar, if_neg hx, h, List.length_cons, List.count_cons]
        simp only [List.length_cons] at ih
        simp only [beq_iff_eq, if_neg hx]
        omega

theorem splitOnChar_of_not_mem (c : Char) (l : List Char) (h : c ∉ l) :
    splitOnChar c l = [l] := by
  induction l with
  | nil => simp [splitOnChar]
  | cons x xs ih =>
    have hx : x ≠ c := fun hc => h (hc ▸ List.mem_cons_self x xs)
    have hxs : c ∉ xs := fun hc => h (List.mem_cons_of_mem x hc)
    simp [splitOnChar, if_neg hx, ih hxs]

theorem splitOnChar_append (c : Char) (l₁ l₂ : List Char) (y : List Char)
    (ys : List (List Char)) (h : c ∉ l₁) (h2 : splitOnChar c l₂ = y :: ys) :
    splitOnChar c (l₁ ++ l₂) = (l₁ ++ y) :: ys := by
  induction l₁ with
  | nil => simpa using h2
  | cons x xs ih =>
    have hx : x ≠ c := fun hc => h (hc ▸ List.mem_cons_self x xs)
    have hxs : c ∉ xs := fun hc => h (List.mem_cons_of_mem x hc)
    simp only [List.cons_append, splitOnChar, if_neg hx, List.append_eq, ih hxs]

theorem splitOnChar_head (c : Char) :
    ∀ l : List Char, (splitOnChar c l).head? = some (l.takeWhile (fun x => x != c)) := by
  intro l
  induction l with
  | nil => simp [splitOnChar]
  | cons x xs ih =>
    by_cases hx : x = c
    · subst hx
      simp [splitOnChar, List.takeWhile]
    · rcases h : splitOnChar c xs with _ | ⟨y, ys⟩
      · exact absurd h (splitOnChar_ne_nil c xs)
      · rw [h] at ih
        have hy : y = xs.takeWhile (fun z => z != c) := by simpa using ih
        have hxb : (x != c) = true := by simp [hx]
        simp [splitOnChar, if_neg hx, h, List.takeWhile, hxb, hy]


theorem stringData_mk (l : List Char) : (String.mk l).data = l := rfl

theorem parseDockerURL_colon_count (s : String) (h : s.data.count ':' ≠ 1) :
    parseDockerURL s = ("", "", "") := by
  have hl : (stringsSplit s ':').length = s.data.count ':' + 1 := by
    simp [stringsSplit, splitOnChar_length]
  have hne : (stringsSplit s ':').length ≠ 2 := by omega
  simp [parseDockerURL, hne]

theorem parseDockerURL_slash_count (s : String) (h1 : s.data.count ':' = 1)
    (h2 : (s.data.takeWhile (fun z => z != ':')).count '/' ≠ 1 ∧
      (s.data.takeWhile (fun z => z != ':')).count '/' ≠ 2) :
    parseDockerURL s = ("", "", "") := by
  have hlen : (splitOnChar ':' s.data).length = 2 := by
    rw [splitOnChar_length, h1]
  obtain ⟨p0, p1, hp⟩ := List.length_eq_two.mp hlen
  have hp0 : p0 = s.data.takeWhile (fun z => z != ':') := by
    have := splitOnChar_head ':' s.data
    rw [hp] at this
    simpa using this
  have hsl : (stringsSplit s ':') = [String.mk p0, String.mk p1] := by
    simp [stringsSplit, hp]
  have hpp : (stringsSplit (String.mk p0) '/').length = p0.count '/' + 1 := by
    simp [stringsSplit, splitOnChar_length, stringData_mk]
  have hpp2 : (stringsSplit (String.mk p0) '/').length ≠ 2 := by
    rw [hpp, hp0]
    omega
  have hpp3 : (stringsSplit (String.mk p0) '/').length ≠ 3 := by
    rw [hpp, hp0]
    omega
  simp [parseDockerURL, hsl, hpp2, hpp3]

theorem splitOnChar_colon_end (pre : String) (hpre : ':' ∉ pre.data) :
    splitOnChar ':' (pre ++ ":").data = [pre.data, []] := by
  have h1 : (pre ++ ":").data = pre.data ++ [':'] := by
    rw [string_data_append]
  rw [h1, splitOnChar_append ':' pre.data [':'] [] [[]] hpre (by simp [splitOnChar])]
  simp

theorem splitOnChar_colon_mid (pre t : String) (hpre : ':' ∉ pre.data)
    (ht : ':' ∉ t.data) :
    splitOnChar ':' (pre ++ ":" ++ t).data = [pre.data, t.data] := by
  have h1 : (pre ++ ":" ++ t).data = pre.data ++ (':' :: t.data) := by
    rw [string_data_append, string_data_append]
    simp
  rw [h1, splitOnChar_append ':' pre.data (':' :: t.data) [] [t.data] hpre
    (by simp [splitOnChar, splitOnChar_of_not_mem ':' t.data ht])]
  simp

/-- C8: a docker URL whose registry host segment carries a port — more
generally, any string containing more than one colon — always parses to
the empty triple, because `parseDockerURL` splits on every colon and
requires exactly two colon-separated parts. -/
theorem parseDockerURL_multi_colon (s : String) (h : 1 < s.data.count ':') :
    parseDockerURL s = ("", "", "") :=
  parseDockerURL_colon_count s (by omega)

theorem parseDockerURL_multi_colon_witness :
    1 < "localhost:5000/acme/widgets:v3".data.count ':' ∧
    parseDockerURL "localhost:5000/acme/widgets:v3" = ("", "", "") :=
  ⟨by decide, parseDockerURL_multi_colon "localhost:5000/acme/widgets:v3" (by decide)⟩

/-- C9: a docker URL of the form `owner/repo:` with an empty tag after the
colon parses successfully to `(owner, repo, "")` instead of failing, even
though the declared `[registry/]owner/repo:tag` shape implies a nonempty
tag. -/
theorem parseDockerURL_empty_tag (owner repo : String)
    (ho : ':' ∉ owner.data ∧ '/' ∉ owner.data)
    (hr : ':' ∉ repo.data ∧ '/' ∉ repo.data) :
    parseDockerURL (owner ++ "/" ++ repo ++ ":") = (owner, repo, "") := by
  have hpreColon : ':' ∉ (owner ++ "/" ++ repo).data := by
    rw [string_data_append, string_data_append]
    intro hmem
    rcases List.mem_append.mp hmem with hmem1 | hmem2
    · rcases List.mem_append.mp hmem1 with hmem3 | hmem4
      · exact ho.1 hmem3
      · simp at hmem4
    · exact hr.1 hmem2
  have h2 := splitOnChar_colon_end (owner ++ "/" ++ repo) hpreColon
  have hd : (owner ++ "/" ++ repo).data = owner.data ++ ('/' :: repo.data) := by
    rw [string_data_append, string_data_append]
    simp
  have hslash : splitOnChar '/' ('/' :: repo.data) = [[], repo.data] := by
    simp [splitOnChar, splitOnChar_of_not_mem '/' repo.data hr.2]
  have h3 : splitOnChar '/' (owner ++ "/" ++ repo).data = [owner.data, repo.data] := by
    rw [hd, splitOnChar_append '/' owner.data ('/' :: repo.data) [] [repo.data] ho.2 hslash]
    simp
  simp only [parseDockerURL, stringsSplit, h2, h3, stringData_mk, stringMk_data,
    List.map_cons, List.map_nil, List.length_cons, List.length_nil, List.getD,
    List.getElem?_cons_zero, List.getElem?_cons_succ, Option.getD_some]
  have h3n : splitOnChar '/' (owner.data ++ '/' :: repo.data) = [owner.data, repo.data] :=
    hd ▸ h3
  simp [stringMk_data, stringData_mk, h3n]

theorem parseDockerURL_empty_tag_witness :
    (':' ∉ "acme".data ∧ '/' ∉ "acme".data) ∧
    parseDockerURL ("acme" ++ "/" ++ "widgets" ++ ":") = ("acme", "widgets", "") :=
  ⟨by decide, parseDockerURL_empty_tag "acme" "widgets" (by decide) (by decide)⟩

/-- C3 counterexample: `"acme/widgets:"` is not of the declared
`[registry/]owner/repo:tag` shape (its tag is empty), yet parsing does not
report failure — it returns the non-failure triple `("acme", "widgets", "")`,
so "every input not of the form fails" is false on the code. -/
theorem parseDockerURL_shape_cex :
    ¬ SpecImageRefForm "acme/widgets:" ∧
    parseDockerURL "acme/widgets:" = ("acme", "widgets", "") := by
  constructor
  · rintro ⟨o, r, t, ho, hr, ht, hcase | ⟨reg, hreg, hcase⟩⟩
    · have hpre : ':' ∉ (o ++ "/" ++ r).data := by
        intro hmem
        simp only [string_data_append, List.mem_append] at hmem
        rcases hmem with (h | h) | h
        · exact ho.2.1 h
        · exact absurd h (by decide)
        · exact hr.2.1 h
      have hsp := splitOnChar_colon_mid (o ++ "/" ++ r) t hpre ht.2.1
      rw [← hcase] at hsp
      have hconc : splitOnChar ':' "acme/widgets:".data = ["acme/widgets".data, []] := rfl
      have heq := hconc.symm.trans hsp
      simp only [List.cons.injEq, and_true] at heq
      exact ht.1 (string_data_eq_nil t heq.2.symm)
    · have hpre : ':' ∉ (reg ++ "/" ++ o ++ "/" ++ r).data := by
        intro hmem
        simp only [string_data_append, List.mem_append] at hmem
        rcases hmem with (((h | h) | h) | h) | h
        · exact hreg.2.1 h
        · exact absurd h (by decide)
        · exact ho.2.1 h
        · exact absurd h (by decide)
        · exact hr.2.1 h
      have hsp := splitOnChar_colon_mid (reg ++ "/" ++ o ++ "/" ++ r) t hpre ht.2.1
      rw [← hcase] at hsp
      have hconc : splitOnChar ':' "acme/widgets:".data = ["acme/widgets".data, []] := rfl
      have heq := hconc.symm.trans hsp
      simp only [List.cons.injEq, and_true] at heq
      exact ht.1 (string_data_eq_nil t heq.2.symm)
  · decide

/-- C3 (amended): the three spec examples hold, and parsing reports the
empty-triple failure for every input that does not even have the separator
shape of an image reference — exactly one colon, with exactly one or two
slashes before it; inputs with the right separator shape but degenerate
segments (such as an empty tag) still produce a non-failure triple. -/
theorem parseDockerURL_shape_spec :
    parseDockerURL "acme/widgets:v3" = ("acme", "widgets", "v3") ∧
    parseDockerURL "registry.local/acme/widgets:v3" = ("acme", "widgets", "v3") ∧
    parseDockerURL "not-a-valid-ref" = ("", "", "") ∧
    ∀ s : String,
      (s.data.count ':' ≠ 1 ∨
        ((s.data.takeWhile (fun z => z != ':')).count '/' ≠ 1 ∧
          (s.data.takeWhile (fun z => z != ':')).count '/' ≠ 2)) →
      parseDockerURL s = ("", "", "") := by
  refine ⟨by decide, by decide, by decide, ?_⟩
  intro s h
  by_cases h1 : s.data.count ':' = 1
  · rcases h with h | h
    · exact absurd h1 h
    · exact parseDockerURL_slash_count s h1 h
  · exact parseDockerURL_colon_count s h1

theorem parseDockerURL_shape_spec_witness :
    ("x:y:z".data.count ':' ≠ 1 ∨
      (("x:y:z".data.takeWhile (fun z => z != ':')).count '/' ≠ 1 ∧
        ("x:y:z".data.takeWhile (fun z => z != ':')).count '/' ≠ 2)) ∧
    parseDockerURL "x:y:z" = ("", "", "") :=
  ⟨Or.inl (by decide), parseDockerURL_shape_spec.2.2.2 "x:y:z" (Or.inl (by decide))⟩

theorem filter_head_min (P : String × Int → Bool) (l : List (String × Int))
    (hp : List.Pairwise (fun a b => a.2 ≤ b.2) l) (x : String × Int)
    (xs : List (String × Int)) (h : l.filter P = x :: xs) :
    x ∈ l ∧ P x = true ∧ ∀ y ∈ l, P y = true → x.2 ≤ y.2 := by
  induction l with
  | nil => simp at h
  | cons a t ih =>
    rcases List.pairwise_cons.mp hp with ⟨ha, ht⟩
    rw [List.filter_cons] at h
    by_cases hPa : P a = true
    · rw [if_pos hPa] at h
      injection h with h1 h2
      subst h1
      refine ⟨List.mem_cons_self a t, hPa, ?_⟩
      intro y hy hPy
      rcases List.mem_cons.mp hy with rfl | hyt
      · exact le_refl _
      · exact ha y hyt
    · rw [if_neg hPa] at h
      obtain ⟨hx, hPx, hmin⟩ := ih ht h
      refine ⟨List.mem_cons_of_mem a hx, hPx, ?_⟩
      intro y hy hPy
      rcases List.mem_cons.mp hy with rfl | hyt
      · exact absurd hPy hPa
      · exact hmin y hyt hPy

/-- C6 (amended): over a concrete ordered set sorted by score, the queue
selector issues only the read `ZRANGEBYSCORE` (so it mutates nothing) and
returns an earliest-scored member whose score lies in `[0, now]` — the
code's range has lower bound `0`, so members with negative scores are
never selected — or the none sentinel when no member has a score in that
range, in which case the whole cycle ends with no error and no further
external calls. -/
theorem getNextDeploy_selector_spec (d : Deployer) (s : RedisState) (now : Int)
    (hconn : d.redisConn = s.conn)
    (hsorted : List.Pairwise (fun a b => a.2 ≤ b.2) s.deploys) :
    (d.getNextDeploy now).2 =
      [Effect.zrangebyscore (d.getKey "governator:deploys") 0 now] ∧
    ((∀ p ∈ s.deploys, ¬(0 ≤ p.2 ∧ p.2 ≤ now)) →
      d.Run now =
        (Except.ok (), [Effect.zrangebyscore (d.getKey "governator:deploys") 0 now])) ∧
    ∃ m, (d.getNextDeploy now).1 = Except.ok m ∧
      ((m = "" ∧ ∀ p ∈ s.deploys, ¬(0 ≤ p.2 ∧ p.2 ≤ now)) ∨
        ∃ sc, (m, sc) ∈ s.deploys ∧ 0 ≤ sc ∧ sc ≤ now ∧
          ∀ p ∈ s.deploys, 0 ≤ p.2 → p.2 ≤ now → sc ≤ p.2) := by
  have key : (RedisState.conn s).zrangebyscore (d.getKey "governator:deploys") 0 now =
      Except.ok (s.zrangebyscoreList 0 now) := rfl
  rcases hfl : s.deploys.filter (fun p => decide (0 ≤ p.2 ∧ p.2 ≤ now)) with _ | ⟨x, xs⟩
  · have hlist : s.zrangebyscoreList 0 now = [] := by
      unfold RedisState.zrangebyscoreList
      rw [hfl]
      rfl
    have hnd : d.getNextDeploy now =
        (Except.ok "", [Effect.zrangebyscore (d.getKey "governator:deploys") 0 now]) := by
      simp [Deployer.getNextDeploy, hconn, key, hlist]
    refine ⟨by rw [hnd], fun _ => ?_, ⟨"", by rw [hnd], Or.inl ⟨rfl, ?_⟩⟩⟩
    · simp [Deployer.Run, Deployer.getNextValidDeploy, hnd]
    · intro p hp hcontra
      exact (List.filter_eq_nil_iff.mp hfl) p hp (decide_eq_true hcontra)
  · obtain ⟨hxmem, hPx, hmin⟩ := filter_head_min _ s.deploys hsorted x xs hfl
    have hlist : s.zrangebyscoreList 0 now = x.1 :: xs.map Prod.fst := by
      unfold RedisState.zrangebyscoreList
      rw [hfl]
      simp
    have hnd : d.getNextDeploy now =
        (Except.ok x.1, [Effect.zrangebyscore (d.getKey "governator:deploys") 0 now]) := by
      simp [Deployer.getNextDeploy, hconn, key, hlist]
    have hPx2 : 0 ≤ x.2 ∧ x.2 ≤ now := by simpa using hPx
    refine ⟨by rw [hnd], ?_, ⟨x.1, by rw [hnd], Or.inr ⟨x.2, ?_, hPx2.1, hPx2.2, ?_⟩⟩⟩
    · intro hprem
      exact absurd hPx2 (hprem x hxmem)
    · simpa using hxmem
    · intro p hp h0 hn
      exact hmin p hp (by simp [h0, hn])

theorem getNextDeploy_selector_spec_witness :
    (dTwoDue.getNextDeploy 5).2 =
      [Effect.zrangebyscore (dTwoDue.getKey "governator:deploys") 0 5] ∧
    ((∀ p ∈ sTwoDue.deploys, ¬(0 ≤ p.2 ∧ p.2 ≤ 5)) →
      dTwoDue.Run 5 =
        (Except.ok (), [Effect.zrangebyscore (dTwoDue.getKey "governator:deploys") 0 5])) ∧
    ∃ m, (dTwoDue.getNextDeploy 5).1 = Except.ok m ∧
      ((m = "" ∧ ∀ p ∈ sTwoDue.deploys, ¬(0 ≤ p.2 ∧ p.2 ≤ 5)) ∨
        ∃ sc, (m, sc) ∈ sTwoDue.deploys ∧ 0 ≤ sc ∧ sc ≤ 5 ∧
          ∀ p ∈ sTwoDue.deploys, 0 ≤ p.2 → p.2 ≤ 5 → sc ≤ p.2) :=
  getNextDeploy_selector_spec dTwoDue sTwoDue 5 rfl (by decide)

/-- C6 counterexample: the only member of the ordered set has score
`-1 ≤ now = 5`, so by the claim the selector should return it; the code
queries `ZRANGEBYSCORE` with lower bound `0` and answers the none
sentinel instead. -/
theorem getNextDeploy_negative_score_cex :
    ("a", -1) ∈ sNegativeScore.deploys ∧ (-1 : Int) ≤ 5 ∧
    dNegativeScore.getNextDeploy 5 =
      (Except.ok "", [Effect.zrangebyscore "redis-queue:name:governator:deploys" 0 5]) :=
  ⟨by decide, by decide, rfl⟩

/-- C1: once an item is claimed (nonzero `ZREM` count) and its side-record
has a `cancellation` field — whatever its value, only `HEXISTS` is asked —
the cycle returns no error, and its trace is exactly the selection read,
the claiming removal and the cancellation check: no control-plane call, no
tracker call, no metadata read, and no command that could put the item
back into the ordered set, so the claim stays honored and nothing further
ever happens for the item. -/
theorem run_cancelled_spec (d : Deployer) (now : Int) (dep : String)
    (rest : List String) (n m : Int)
    (hsel : d.redisConn.zrangebyscore (d.getKey "governator:deploys") 0 now =
      Except.ok (dep :: rest))
    (hdep : dep ≠ "")
    (hrem : d.redisConn.zrem (d.getKey "governator:deploys") dep = Except.ok n)
    (hn : n ≠ 0)
    (hcanc : d.redisConn.hexists (d.getKey dep) "cancellation" = Except.ok m)
    (hm : m ≠ 0) :
    d.Run now =
      (Except.ok (),
        [Effect.zrangebyscore (d.getKey "governator:deploys") 0 now,
          Effect.zrem (d.getKey "governator:deploys") dep,
          Effect.hexists (d.getKey dep) "cancellation"]) := by
  have hnb : (n != 0) = true := by simpa using hn
  have hmb : (m == 0) = false := by simpa using hm
  simp [Deployer.Run, Deployer.getNextValidDeploy, Deployer.getNextDeploy,
    Deployer.lockDeploy, Deployer.validateDeploy, hsel, hdep, hrem, hcanc, hnb, hmb]

theorem run_cancelled_spec_witness :
    dCancelled.Run 100 =
      (Except.ok (),
        [Effect.zrangebyscore "redis-queue:name:governator:deploys" 0 100,
          Effect.zrem "redis-queue:name:governator:deploys" "pending-deploy-1",
          Effect.hexists "redis-queue:name:pending-deploy-1" "cancellation"]) :=
  run_cancelled_spec dCancelled 100 "pending-deploy-1" [] 1 1 rfl (by decide) rfl
    (by decide) rfl (by decide)

/-- C2: when the claiming `ZREM` of the selected identifier reports a zero
count the cycle ends immediately with no error, and its trace is exactly
the selection read followed by the `ZREM`: no cancellation check, no
metadata read, no control-plane call and no tracker call happen in that
cycle. -/
theorem run_lost_claim_spec (d : Deployer) (now : Int) (dep : String)
    (rest : List String)
    (hsel : d.redisConn.zrangebyscore (d.getKey "governator:deploys") 0 now =
      Except.ok (dep :: rest))
    (hdep : dep ≠ "")
    (hrem : d.redisConn.zrem (d.getKey "governator:deploys") dep = Except.ok 0) :
    d.Run now =
      (Except.ok (),
        [Effect.zrangebyscore (d.getKey "governator:deploys") 0 now,
          Effect.zrem (d.getKey "governator:deploys") dep]) := by
  simp [Deployer.Run, Deployer.getNextValidDeploy, Deployer.getNextDeploy,
    Deployer.lockDeploy, hsel, hdep, hrem]

theorem run_lost_claim_spec_witness :
    dLostClaim.Run 100 =
      (Except.ok (),
        [Effect.zrangebyscore "redis-queue:name:governator:deploys" 0 100,
          Effect.zrem "redis-queue:name:governator:deploys" "pending-deploy-1"]) :=
  run_lost_claim_spec dLostClaim 100 "pending-deploy-1" [] rfl (by decide) rfl

theorem getStringField_error (fields : List (String × Json)) (name e : String)
    (h : getStringField fields name = Except.error e) :
    e = "json: bad field " ++ name := by
  unfold getStringField at h
  split at h <;> simp_all

theorem unmarshal_error_length (s e : String)
    (h : unmarshalRequestMetadata s = Except.error e) : e.length ≤ 28 := by
  unfold unmarshalRequestMetadata at h
  split at h
  · simp only [Except.error.injEq] at h
    subst h
    decide
  · split at h
    · simp only [Except.error.injEq] at h
      subst h
      decide
    · split at h
      · split at h
        · rename_i e2 heq2
          simp only [Except.error.injEq] at h
          subst h
          rw [getStringField_error _ _ _ heq2]
          decide
        · split at h
          · rename_i e3 heq3
            simp only [Except.error.injEq] at h
            subst h
            rw [getStringField_error _ _ _ heq3]
            decide
          · simp at h
      · simp only [Except.error.injEq] at h
        subst h
        decide

/-- C5: for a claimed, non-cancelled identifier, a nil `request:metadata`
reply fails the cycle with the data-integrity error naming that
identifier, and a present but undecodable reply fails the cycle with the
decoding error surfaced unchanged; in both cases the trace stops at the
metadata read — no control-plane or tracker call is made and no command
re-adds the item the claim already removed from the ordered set. -/
theorem run_metadata_failure_spec (d : Deployer) (now : Int) (dep : String)
    (rest : List String) (n : Int) (mb : Option String) (e : String)
    (hsel : d.redisConn.zrangebyscore (d.getKey "governator:deploys") 0 now =
      Except.ok (dep :: rest))
    (hdep : dep ≠ "")
    (hrem : d.redisConn.zrem (d.getKey "governator:deploys") dep = Except.ok n)
    (hn : n ≠ 0)
    (hcanc : d.redisConn.hexists (d.getKey dep) "cancellation" = Except.ok 0)
    (hmb : d.redisConn.hget (d.getKey dep) "request:metadata" = Except.ok mb)
    (hcase : (mb = none ∧ e = "Deploy metadata not found for \x27" ++ dep ++ "\x27") ∨
      ∃ b, mb = some b ∧ unmarshalRequestMetadata b = Except.error e) :
    d.Run now =
      (Except.error e,
        [Effect.zrangebyscore (d.getKey "governator:deploys") 0 now,
          Effect.zrem (d.getKey "governator:deploys") dep,
          Effect.hexists (d.getKey dep) "cancellation",
          Effect.hget (d.getKey dep) "request:metadata"]) := by
  have hnb : (n != 0) = true := by simpa using hn
  rcases hcase with ⟨hmbn, he⟩ | ⟨b, hmbs, hum⟩
  · subst hmbn
    subst he
    simp [Deployer.Run, Deployer.getNextValidDeploy, Deployer.getNextDeploy,
      Deployer.lockDeploy, Deployer.validateDeploy, Deployer.getMetadata,
      hsel, hdep, hrem, hcanc, hmb, hnb]
  · subst hmbs
    simp [Deployer.Run, Deployer.getNextValidDeploy, Deployer.getNextDeploy,
      Deployer.lockDeploy, Deployer.validateDeploy, Deployer.getMetadata,
      hsel, hdep, hrem, hcanc, hmb, hnb, hum]

theorem run_metadata_failure_spec_witness :
    dNoMetadata.Run 100 =
      (Except.error "Deploy metadata not found for \x27pending-deploy-1\x27",
        [Effect.zrangebyscore "redis-queue:name:governator:deploys" 0 100,
          Effect.zrem "redis-queue:name:governator:deploys" "pending-deploy-1",
          Effect.hexists "redis-queue:name:pending-deploy-1" "cancellation",
          Effect.hget "redis-queue:name:pending-deploy-1" "request:metadata"]) :=
  run_metadata_failure_spec dNoMetadata 100 "pending-deploy-1" [] 1 none
    "Deploy metadata not found for \x27pending-deploy-1\x27" rfl (by decide) rfl
    (by decide) rfl rfl (Or.inl ⟨rfl, rfl⟩)

/-- C10: for a claimed, non-cancelled identifier whose `request:metadata`
field holds empty bytes — a non-nil reply — the cycle fails with the JSON
decoding error, which is not the metadata-not-found error; and in general
the metadata read produces the not-found error exactly when the store
reply is nil, so nil and empty bytes are distinguished. -/
theorem run_metadata_empty_bytes_spec (d : Deployer) (now : Int) (dep : String)
    (rest : List String) (n : Int)
    (hsel : d.redisConn.zrangebyscore (d.getKey "governator:deploys") 0 now =
      Except.ok (dep :: rest))
    (hdep : dep ≠ "")
    (hrem : d.redisConn.zrem (d.getKey "governator:deploys") dep = Except.ok n)
    (hn : n ≠ 0)
    (hcanc : d.redisConn.hexists (d.getKey dep) "cancellation" = Except.ok 0)
    (hmb : d.redisConn.hget (d.getKey dep) "request:metadata" = Except.ok (some "")) :
    (d.Run now =
      (Except.error "unexpected end of JSON input",
        [Effect.zrangebyscore (d.getKey "governator:deploys") 0 now,
          Effect.zrem (d.getKey "governator:deploys") dep,
          Effect.hexists (d.getKey dep) "cancellation",
          Effect.hget (d.getKey dep) "request:metadata"]) ∧
      "unexpected end of JSON input" ≠
        "Deploy metadata not found for \x27" ++ dep ++ "\x27") ∧
    ∀ (d2 : Deployer) (dep2 : String) (mb : Option String),
      d2.redisConn.hget (d2.getKey dep2) "request:metadata" = Except.ok mb →
      ((d2.getMetadata dep2).1 =
          Except.error ("Deploy metadata not found for \x27" ++ dep2 ++ "\x27") ↔
        mb = none) := by
  have h31 : ("Deploy metadata not found for \x27" : String).length = 31 := rfl
  have h1 : ("\x27" : String).length = 1 := rfl
  constructor
  · constructor
    · have hnb : (n != 0) = true := by simpa using hn
      have hu : unmarshalRequestMetadata "" = Except.error "unexpected end of JSON input" :=
        rfl
      simp [Deployer.Run, Deployer.getNextValidDeploy, Deployer.getNextDeploy,
        Deployer.lockDeploy, Deployer.validateDeploy, Deployer.getMetadata,
        hsel, hdep, hrem, hcanc, hmb, hnb, hu]
    · intro heq
      have hlen := congrArg String.length heq
      rw [string_length_append, string_length_append, h31, h1] at hlen
      have : (28 : Nat) = 31 + dep.length + 1 := hlen
      omega
  · intro d2 dep2 mb hmb2
    cases mb with
    | none => simp [Deployer.getMetadata, hmb2]
    | some b =>
      rcases hu : unmarshalRequestMetadata b with e2 | md
      · have hle := unmarshal_error_length b e2 hu
        simp only [Deployer.getMetadata, hmb2, hu]
        constructor
        · intro heq
          simp only [Except.error.injEq] at heq
          have hlen := congrArg String.length heq
          rw [string_length_append, string_length_append, h31, h1] at hlen
          omega
        · intro heq
          exact absurd heq (by simp)
      · simp [Deployer.getMetadata, hmb2, hu]

theorem run_metadata_empty_bytes_spec_witness :
    (dEmptyMetadata.Run 100 =
      (Except.error "unexpected end of JSON input",
        [Effect.zrangebyscore "redis-queue:name:governator:deploys" 0 100,
          Effect.zrem "redis-queue:name:governator:deploys" "pending-deploy-1",
          Effect.hexists "redis-queue:name:pending-deploy-1" "cancellation",
          Effect.hget "redis-queue:name:pending-deploy-1" "request:metadata"]) ∧
      "unexpected end of JSON input" ≠
        "Deploy metadata not found for \x27pending-deploy-1\x27") ∧
    ∀ (d2 : Deployer) (dep2 : String) (mb : Option String),
      d2.redisConn.hget (d2.getKey dep2) "request:metadata" = Except.ok mb →
      ((d2.getMetadata dep2).1 =
          Except.error ("Deploy metadata not found for \x27" ++ dep2 ++ "\x27") ↔
        mb = none) :=
  run_metadata_empty_bytes_spec dEmptyMetadata 100 "pending-deploy-1" [] 1 rfl
    (by decide) rfl (by decide) rfl rfl

/-- C7: a cycle that reaches the deploy step with decoded metadata `md`
inspects the cluster service named by the parsed repo component in one
inspect call; if the inspect fails, the cycle stops with that error and no
update or tracker call is made; for the service the inspect returned, the
submitted spec is the read spec with only its image field overwritten by
the full requested docker URL (not just the parsed repo or tag), the
update supplies exactly the version token read by that inspect, and if the
update fails, the cycle stops with that error and the tracker is never
called; when the update succeeds the cycle continues into the tracker
notification. -/
theorem deploy_step_spec (d : Deployer) (now : Int) (dep : String)
    (rest : List String) (n : Int) (bytes : String) (md : RequestMetadata)
    (owner repo tag : String)
    (hsel : d.redisConn.zrangebyscore (d.getKey "governator:deploys") 0 now =
      Except.ok (dep :: rest))
    (hdep : dep ≠ "")
    (hrem : d.redisConn.zrem (d.getKey "governator:deploys") dep = Except.ok n)
    (hn : n ≠ 0)
    (hcanc : d.redisConn.hexists (d.getKey dep) "cancellation" = Except.ok 0)
    (hmb : d.redisConn.hget (d.getKey dep) "request:metadata" = Except.ok (some bytes))
    (hum : unmarshalRequestMetadata bytes = Except.ok md)
    (hparse : parseDockerURL md.dockerURL = (owner, repo, tag)) :
    (∀ e, d.dockerClient.serviceInspectWithRaw repo = Except.error e →
      d.Run now =
        (Except.error e,
          [Effect.zrangebyscore (d.getKey "governator:deploys") 0 now,
            Effect.zrem (d.getKey "governator:deploys") dep,
            Effect.hexists (d.getKey dep) "cancellation",
            Effect.hget (d.getKey dep) "request:metadata",
            Effect.serviceInspect repo])) ∧
    ∀ svc, d.dockerClient.serviceInspectWithRaw repo = Except.ok svc →
      (specSetImage svc.spec md.dockerURL).taskTemplate.containerSpec.image =
          md.dockerURL ∧
      (∀ e, d.dockerClient.serviceUpdate svc.id svc.version
          (specSetImage svc.spec md.dockerURL) = Except.error e →
        d.Run now =
          (Except.error e,
            [Effect.zrangebyscore (d.getKey "governator:deploys") 0 now,
              Effect.zrem (d.getKey "governator:deploys") dep,
              Effect.hexists (d.getKey dep) "cancellation",
              Effect.hget (d.getKey dep) "request:metadata",
              Effect.serviceInspect repo,
              Effect.serviceUpdate svc.id svc.version
                (specSetImage svc.spec md.dockerURL)])) ∧
      (d.dockerClient.serviceUpdate svc.id svc.version
          (specSetImage svc.spec md.dockerURL) = Except.ok () →
        d.Run now =
          ((d.notifyDeployState md.dockerURL).1,
            [Effect.zrangebyscore (d.getKey "governator:deploys") 0 now,
              Effect.zrem (d.getKey "governator:deploys") dep,
              Effect.hexists (d.getKey dep) "cancellation",
              Effect.hget (d.getKey dep) "request:metadata",
              Effect.serviceInspect repo,
              Effect.serviceUpdate svc.id svc.version
                (specSetImage svc.spec md.dockerURL)] ++
              (d.notifyDeployState md.dockerURL).2)) := by
  have hnb : (n != 0) = true := by simpa using hn
  constructor
  · intro e hins
    simp [Deployer.Run, Deployer.getNextValidDeploy, Deployer.getNextDeploy,
      Deployer.lockDeploy, Deployer.validateDeploy, Deployer.getMetadata,
      Deployer.deploy, hsel, hdep, hrem, hcanc, hmb, hnb, hum, hparse, hins]
  · intro svc hins
    refine ⟨rfl, ?_, ?_⟩
    · intro e hupd
      simp [Deployer.Run, Deployer.getNextValidDeploy, Deployer.getNextDeploy,
        Deployer.lockDeploy, Deployer.validateDeploy, Deployer.getMetadata,
        Deployer.deploy, hsel, hdep, hrem, hcanc, hmb, hnb, hum, hparse, hins, hupd]
    · intro hupd
      simp [Deployer.Run, Deployer.getNextValidDeploy, Deployer.getNextDeploy,
        Deployer.lockDeploy, Deployer.validateDeploy, Deployer.getMetadata,
        Deployer.deploy, hsel, hdep, hrem, hcanc, hmb, hnb, hum, hparse, hins, hupd]

theorem deploy_step_spec_witness :
    dHappy.Run 100 =
      (Except.ok (),
        [Effect.zrangebyscore "redis-queue:name:governator:deploys" 0 100,
          Effect.zrem "redis-queue:name:governator:deploys" "pending-deploy-1",
          Effect.hexists "redis-queue:name:pending-deploy-1" "cancellation",
          Effect.hget "redis-queue:name:pending-deploy-1" "request:metadata",
          Effect.serviceInspect "my-application",
          Effect.serviceUpdate "svc-1" ⟨7⟩ ⟨⟨⟨"octoblu/my-application:v1"⟩⟩⟩,
          Effect.httpPut
            "https://deploy-state.test/deployments/octoblu/my-application/v1/cluster/super/passed"
            none]) :=
  ((deploy_step_spec dHappy 100 "pending-deploy-1" [] 1 exMetadataJson
      ⟨"/octoblu/my-application", "octoblu/my-application:v1"⟩ "octoblu"
      "my-application" "v1" rfl (by decide) rfl (by decide) rfl rfl rfl rfl).2
    exService rfl).2.2 rfl

/-- C4: once the cluster update has succeeded, exactly one bodyless PUT is
issued, to `<base>/deployments/<owner>/<repo>/<tag>/cluster/<cluster>/passed`
built from the parsed docker URL and the configured cluster; the cycle then
errors precisely when that request itself fails or its status code exceeds
399 — in particular a 500 answer fails the cycle even though the update
already committed — and the trace shows no call after the PUT, so nothing
rolls the update back. -/
theorem run_notify_spec (d : Deployer) (now : Int) (dep : String)
    (rest : List String) (n : Int) (bytes : String) (md : RequestMetadata)
    (owner repo tag url : String) (svc : Service)
    (hsel : d.redisConn.zrangebyscore (d.getKey "governator:deploys") 0 now =
      Except.ok (dep :: rest))
    (hdep : dep ≠ "")
    (hrem : d.redisConn.zrem (d.getKey "governator:deploys") dep = Except.ok n)
    (hn : n ≠ 0)
    (hcanc : d.redisConn.hexists (d.getKey dep) "cancellation" = Except.ok 0)
    (hmb : d.redisConn.hget (d.getKey dep) "request:metadata" = Except.ok (some bytes))
    (hum : unmarshalRequestMetadata bytes = Except.ok md)
    (hparse : parseDockerURL md.dockerURL = (owner, repo, tag))
    (hins : d.dockerClient.serviceInspectWithRaw repo = Except.ok svc)
    (hupd : d.dockerClient.serviceUpdate svc.id svc.version
      (specSetImage svc.spec md.dockerURL) = Except.ok ())
    (hurl : url = d.deployStateURI ++ "/" ++ ("deployments/" ++ owner ++ "/" ++ repo ++
      "/" ++ tag ++ "/cluster/" ++ d.cluster ++ "/passed")) :
    (∀ e, d.httpPut url none = Except.error e →
      d.Run now =
        (Except.error e,
          [Effect.zrangebyscore (d.getKey "governator:deploys") 0 now,
            Effect.zrem (d.getKey "governator:deploys") dep,
            Effect.hexists (d.getKey dep) "cancellation",
            Effect.hget (d.getKey dep) "request:metadata",
            Effect.serviceInspect repo,
            Effect.serviceUpdate svc.id svc.version (specSetImage svc.spec md.dockerURL),
            Effect.httpPut url none])) ∧
    ∀ code, d.httpPut url none = Except.ok code →
      (d.Run now).2 =
        [Effect.zrangebyscore (d.getKey "governator:deploys") 0 now,
          Effect.zrem (d.getKey "governator:deploys") dep,
          Effect.hexists (d.getKey dep) "cancellation",
          Effect.hget (d.getKey dep) "request:metadata",
          Effect.serviceInspect repo,
          Effect.serviceUpdate svc.id svc.version (specSetImage svc.spec md.dockerURL),
          Effect.httpPut url none] ∧
      ((d.Run now).1 = Except.ok () ↔ code ≤ 399) ∧
      (399 < code →
        (d.Run now).1 = Except.error "invalid response from deploy-state-service") := by
  have hnb : (n != 0) = true := by simpa using hn
  subst hurl
  constructor
  · intro e hput
    simp [Deployer.Run, Deployer.getNextValidDeploy, Deployer.getNextDeploy,
      Deployer.lockDeploy, Deployer.validateDeploy, Deployer.getMetadata,
      Deployer.deploy, Deployer.notifyDeployState, hsel, hdep, hrem, hcanc, hmb,
      hnb, hum, hparse, hins, hupd, hput]
  · intro code hput
    by_cases hc : 399 < code
    · have hrun : d.Run now =
          (Except.error "invalid response from deploy-state-service",
            [Effect.zrangebyscore (d.getKey "governator:deploys") 0 now,
              Effect.zrem (d.getKey "governator:deploys") dep,
              Effect.hexists (d.getKey dep) "cancellation",
              Effect.hget (d.getKey dep) "request:metadata",
              Effect.serviceInspect repo,
              Effect.serviceUpdate svc.id svc.version (specSetImage svc.spec md.dockerURL),
              Effect.httpPut (d.deployStateURI ++ "/" ++ ("deployments/" ++ owner ++ "/" ++
                repo ++ "/" ++ tag ++ "/cluster/" ++ d.cluster ++ "/passed")) none]) := by
        simp [Deployer.Run, Deployer.getNextValidDeploy, Deployer.getNextDeploy,
          Deployer.lockDeploy, Deployer.validateDeploy, Deployer.getMetadata,
          Deployer.deploy, Deployer.notifyDeployState, hsel, hdep, hrem, hcanc, hmb,
          hnb, hum, hparse, hins, hupd, hput, hc]
      rw [hrun]
      refine ⟨rfl, ⟨fun h => by simp at h, fun h => absurd hc (by omega)⟩, fun _ => rfl⟩
    · have hle : code ≤ 399 := by omega
      have hrun : d.Run now =
          (Except.ok (),
            [Effect.zrangebyscore (d.getKey "governator:deploys") 0 now,
              Effect.zrem (d.getKey "governator:deploys") dep,
              Effect.hexists (d.getKey dep) "cancellation",
              Effect.hget (d.getKey dep) "request:metadata",
              Effect.serviceInspect repo,
              Effect.serviceUpdate svc.id svc.version (specSetImage svc.spec md.dockerURL),
              Effect.httpPut (d.deployStateURI ++ "/" ++ ("deployments/" ++ owner ++ "/" ++
                repo ++ "/" ++ tag ++ "/cluster/" ++ d.cluster ++ "/passed")) none]) := by
        simp [Deployer.Run, Deployer.getNextValidDeploy, Deployer.getNextDeploy,
          Deployer.lockDeploy, Deployer.validateDeploy, Deployer.getMetadata,
          Deployer.deploy, Deployer.notifyDeployState, hsel, hdep, hrem, hcanc, hmb,
          hnb, hum, hparse, hins, hupd, hput, hc]
      rw [hrun]
      exact ⟨rfl, ⟨fun _ => hle, fun _ => rfl⟩, fun h => absurd h hc⟩

theorem run_notify_spec_witness :
    (dTracker500.Run 100).2 =
      [Effect.zrangebyscore "redis-queue:name:governator:deploys" 0 100,
        Effect.zrem "redis-queue:name:governator:deploys" "pending-deploy-1",
        Effect.hexists "redis-queue:name:pending-deploy-1" "cancellation",
        Effect.hget "redis-queue:name:pending-deploy-1" "request:metadata",
        Effect.serviceInspect "my-application",
        Effect.serviceUpdate "svc-1" ⟨7⟩ ⟨⟨⟨"octoblu/my-application:v1"⟩⟩⟩,
        Effect.httpPut
          "https://deploy-state.test/deployments/octoblu/my-application/v1/cluster/super/passed"
          none] ∧
    ((dTracker500.Run 100).1 = Except.ok () ↔ (500 : Nat) ≤ 399) ∧
    ((399 : Nat) < 500 →
      (dTracker500.Run 100).1 = Except.error "invalid response from deploy-state-service") :=
  (run_notify_spec dTracker500 100 "pending-deploy-1" [] 1 exMetadataJson
      ⟨"/octoblu/my-application", "octoblu/my-application:v1"⟩ "octoblu"
      "my-application" "v1"
      "https://deploy-state.test/deployments/octoblu/my-application/v1/cluster/super/passed"
      exService rfl (by decide) rfl (by decide) rfl rfl rfl rfl rfl rfl rfl).2 500 rfl
